/-
Verification of the planning-poker server (src/server/index.js) against its
natural-language specification.

The server keeps an in-memory map `games` from game id to game objects
`{id, players, revealed, createdAt}`, where `players` maps a socket id to
`{id, name, card}`.  Socket event handlers (`join-game`, `select-card`,
`reveal-cards`, `new-round`, `disconnect`) mutate this state and broadcast a
sanitized view produced by `getGameState`; an HTTP layer creates games
(`POST /games`) and serves the same sanitized view (`GET /games/:gameId`).

The embedding below is a direct translation of that code:
- JS objects keyed by strings become association-style lists; the structural
  fact that a JS object cannot hold two entries under one key appears as
  `Nodup` hypotheses where it matters.
- JS card values (numbers and the strings '?' / '☕') become the `Card` type.
- `null` becomes `none`; fresh random ids and clock reads (`nanoid(6)`,
  `Date.now()`) become explicit parameters.
- Each socket handler becomes a function from the store and the connection's
  local state (`currentGameId`, `currentPlayer`) to the updated store plus
  the list of emitted events (errors to the sender, broadcasts to the room).
- JS numeric averaging is modelled over exact rationals; `Number.toFixed(1)`
  becomes `toFixed1` (round half away from zero at the tenths digit, which
  is the spec of `toFixed` for nonnegative exactly-representable values).

The repository's client (src/client/src/pages/GameRoom.tsx) emits a
`start-countdown` event and renders a `countdown` field of the broadcast
state, but the server file under src/ has no handler for it; the countdown
controller is therefore modelled from the spec where needed, and every such
definition is marked `Modelled from the spec:`.
-/
import Mathlib

namespace PlanningPoker

/-- A card value sent by a client: a JS number or a JS string
(the two sentinels are the strings "?" and "☕"). -/
inductive Card where
  | num (n : Nat)
  | str (s : String)
  deriving DecidableEq, Repr

/-- The card set `validCards = [0, 1, 2, 3, 5, 8, 13, 21, 34, 55, 89, '?', '☕']`
(src/server/index.js line 26). -/
def validCards : List Card :=
  [.num 0, .num 1, .num 2, .num 3, .num 5, .num 8, .num 13, .num 21,
   .num 34, .num 55, .num 89, .str "?", .str "☕"]

/-- A player object `{id, name, card}`; `card = null` is `none`
(src/server/index.js lines 102-106). -/
structure Player where
  id : String
  name : String
  card : Option Card
  deriving DecidableEq, Repr

/-- A game object `{id, players, revealed, createdAt}`
(src/server/index.js lines 32-37).  `players` is a JS object keyed by socket
id whose values always carry that same id in their `id` field (both are set
to `socket.id` at the only insertion site, lines 103/109), so it is modelled
as a list of `Player` keyed by `Player.id`.  The source never creates or
assigns a `countdown` field, so reading it yields `undefined`; the field is
carried here as an `Option Nat` so that the spec's countdown statements can
be expressed, and it is `none` at creation. -/
structure Game where
  id : String
  players : List Player
  revealed : Bool
  createdAt : Nat
  countdown : Option Nat
  deriving DecidableEq, Repr

/-- The global `games` registry (src/server/index.js line 23), a JS object
keyed by game id. -/
abbrev Store := List (String × Game)

/-- JS object lookup `games[gameId]` (`undefined` is `none`). -/
def storeGet (st : Store) (gid : String) : Option Game :=
  (st.find? (fun e => e.1 = gid)).map Prod.snd

/-- JS object assignment `games[gameId] = g`: replace the entry under the
key if present, otherwise append. -/
def storeSet (st : Store) (gid : String) (g : Game) : Store :=
  match st with
  | [] => [(gid, g)]
  | e :: rest => if e.1 = gid then (gid, g) :: rest else e :: storeSet rest gid g

/-- JS `delete games[gameId]`. -/
def storeRemove (st : Store) (gid : String) : Store :=
  match st with
  | [] => []
  | e :: rest => if e.1 = gid then rest else e :: storeRemove rest gid

/-- Lookup `game.players[socketId]`. -/
def findPlayer (ps : List Player) (sid : String) : Option Player :=
  ps.find? (fun p => p.id = sid)

/-- JS assignment `game.players[socketId] = p`: replace in place or append. -/
def setPlayer (ps : List Player) (sid : String) (p : Player) : List Player :=
  match ps with
  | [] => [p]
  | q :: rest => if q.id = sid then p :: rest else q :: setPlayer rest sid p

/-- JS `delete game.players[socketId]`. -/
def removePlayer (ps : List Player) (sid : String) : List Player :=
  match ps with
  | [] => []
  | q :: rest => if q.id = sid then rest else q :: removePlayer rest sid

/-- JS `Number.prototype.toFixed(1)` for a nonnegative exact rational: the
integer `n` minimizing `|n / 10 - q|`, the larger on a tie, printed with one
digit after the point (ECMA-262 Number.prototype.toFixed step semantics;
the JS computation runs on doubles, the model on exact rationals). -/
def toFixed1 (q : ℚ) : String :=
  let n : Int := ⌊q * 10 + 1 / 2⌋
  toString (n / 10) ++ "." ++ toString (n % 10)

/-- The helper `calculateAverage` (src/server/index.js lines 226-235): keep the cards
that are non-null JS numbers, return `null` if there are none, otherwise the
mean formatted with `toFixed(1)`. -/
def calculateAverage (game : Game) : Option String :=
  let cards : List Nat := game.players.filterMap (fun p =>
    match p.card with
    | some (Card.num n) => some n
    | _ => none)
  if cards.length = 0 then none
  else some (toFixed1 ((cards.sum : ℚ) / (cards.length : ℚ)))

/-- The sanitized `card` field of a player view:
`game.revealed ? player.card : (player.card !== null ? true : null)`
(src/server/index.js line 62 and line 213). `value c` is a raw card,
`hidden` is the JS `true` marker, `unset` is JS `null`. -/
inductive ViewCard where
  | value (c : Card)
  | hidden
  | unset
  deriving DecidableEq, Repr

/-- A sanitized player entry `{...player, card: ...}`. -/
structure PlayerView where
  id : String
  name : String
  card : ViewCard
  deriving DecidableEq, Repr

/-- The sanitized game state `{id, players, revealed, average}` plus the
`countdown` field of the spec's view shape (absent, i.e. `undefined`, in
every state the src server produces). -/
structure GameView where
  id : String
  players : List PlayerView
  revealed : Bool
  countdown : Option Nat
  average : Option String
  deriving DecidableEq, Repr

/-- The sanitization applied to one player (src/server/index.js
lines 60-63 and 211-214, which are identical). -/
def sanitizePlayer (revealed : Bool) (p : Player) : PlayerView :=
  { id := p.id
    name := p.name
    card := if revealed then
        match p.card with
        | some c => ViewCard.value c
        | none => ViewCard.unset
      else match p.card with
        | some _ => ViewCard.hidden
        | none => ViewCard.unset }

/-- The sanitized view of a game: the body shared verbatim by `getGameState`
(src/server/index.js lines 208-222) and the `GET /games/:gameId` response
(lines 57-71). -/
def sanitizedView (game : Game) : GameView :=
  { id := game.id
    players := game.players.map (sanitizePlayer game.revealed)
    revealed := game.revealed
    countdown := game.countdown
    average := if game.revealed then calculateAverage game else none }

/-- The helper `getGameState(gameId)` (src/server/index.js lines 204-223): `null` when
the game does not exist, the sanitized view otherwise. -/
def getGameState (st : Store) (gid : String) : Option GameView :=
  match storeGet st gid with
  | none => none
  | some game => some (sanitizedView game)

/-- The `GET /games/:gameId` endpoint (src/server/index.js lines 48-72):
404 "Game not found" or the sanitized view. -/
def httpGetGame (st : Store) (gid : String) : Except String GameView :=
  match storeGet st gid with
  | none => Except.error "Game not found"
  | some game => Except.ok (sanitizedView game)

/-- An outbound event: `socket.emit('error', {message})` to the sender, or
`io.to(gameId).emit('game-updated', view)` to the whole room. -/
inductive Emit where
  | errorMsg (message : String)
  | gameUpdated (gid : String) (view : Option GameView)
  deriving DecidableEq, Repr

/-- The per-connection local state of the socket handler closure:
`currentGameId` and `currentPlayer` (src/server/index.js lines 77-78). -/
structure Conn where
  currentGameId : Option String
  currentPlayer : Option Player
  deriving DecidableEq, Repr

/-- The endpoint `POST /games` (src/server/index.js lines 29-40): insert a fresh empty
game under the id produced by `nanoid(6)` and answer with that id.  The
random id and the clock read `Date.now()` are the explicit parameters `gid`
and `now`; the code performs no collision check before the assignment
`games[gameId] = {...}`. -/
def createGame (st : Store) (gid : String) (now : Nat) : Store × String :=
  (storeSet st gid { id := gid, players := [], revealed := false,
                     createdAt := now, countdown := none }, gid)

/-- The `join-game` handler (src/server/index.js lines 81-117): reject if
the game does not exist; otherwise bind the connection, evict the first
player that has the requested name under a different id, insert
`{id: socket.id, name, card: null}` under `socket.id`, and broadcast. -/
def joinGame (st : Store) (c : Conn) (socketId gameId playerName : String) :
    Store × Conn × List Emit :=
  match storeGet st gameId with
  | none => (st, c, [Emit.errorMsg "Game not found"])
  | some game =>
      let ps := match game.players.find? (fun p =>
          p.name = playerName ∧ p.id ≠ socketId) with
        | some stale => game.players.eraseP (fun p => p.id = stale.id)
        | none => game.players
      let newPlayer : Player := { id := socketId, name := playerName, card := none }
      let game' := { game with players := setPlayer ps socketId newPlayer }
      let st' := storeSet st gameId game'
      (st', { currentGameId := some gameId, currentPlayer := some newPlayer },
       [Emit.gameUpdated gameId (getGameState st' gameId)])

/-- The `select-card` handler (src/server/index.js lines 120-145): first the
active-game guard, then the card validation against `validCards`, then the
membership check `games[currentGameId].players[socket.id]`, and only then
the mutation plus broadcast. -/
def selectCard (st : Store) (c : Conn) (socketId : String) (card : Card) :
    Store × Conn × List Emit :=
  match c.currentGameId, c.currentPlayer with
  | some gid, some _ =>
      match storeGet st gid with
      | none => (st, c, [Emit.errorMsg "Not in an active game"])
      | some game =>
          if ¬ validCards.contains card then
            (st, c, [Emit.errorMsg "Invalid card value"])
          else match findPlayer game.players socketId with
            | none => (st, c, [Emit.errorMsg "Player not found in game"])
            | some p =>
                let game' := { game with
                  players := setPlayer game.players socketId { p with card := some card } }
                let st' := storeSet st gid game'
                (st', c, [Emit.gameUpdated gid (getGameState st' gid)])
  | _, _ => (st, c, [Emit.errorMsg "Not in an active game"])

/-- The `reveal-cards` handler (src/server/index.js lines 148-162): guard,
then `revealed = true` and broadcast. -/
def revealCards (st : Store) (c : Conn) : Store × List Emit :=
  match c.currentGameId with
  | none => (st, [Emit.errorMsg "Not in an active game"])
  | some gid =>
      match storeGet st gid with
      | none => (st, [Emit.errorMsg "Not in an active game"])
      | some game =>
          let st' := storeSet st gid { game with revealed := true }
          (st', [Emit.gameUpdated gid (getGameState st' gid)])

/-- The `new-round` handler (src/server/index.js lines 165-180): guard, then
`revealed = false`, every player's `card = null`, and broadcast.  The src
server never stores a countdown; the clearing of an in-progress countdown
(`countdown := none`) is Modelled from the spec: "`newRound()`: sets
`revealed=false`, clears any in-progress `countdown`, and resets every
Member's `selection` to `unset`" — the countdown controller itself is
repository code absent from src/ (the client emits `start-countdown`). -/
def newRound (st : Store) (c : Conn) : Store × List Emit :=
  match c.currentGameId with
  | none => (st, [Emit.errorMsg "Not in an active game"])
  | some gid =>
      match storeGet st gid with
      | none => (st, [Emit.errorMsg "Not in an active game"])
      | some game =>
          let game' := { game with
            revealed := false
            players := game.players.map (fun p => { p with card := none })
            countdown := none }
          let st' := storeSet st gid game'
          (st', [Emit.gameUpdated gid (getGameState st' gid)])

/-- The `disconnect` handler (src/server/index.js lines 183-200): if the
connection was bound to an existing game, delete its player; if the game
has no players left delete the game (no broadcast), otherwise broadcast the
updated state to the remaining players. -/
def disconnect (st : Store) (c : Conn) (socketId : String) : Store × List Emit :=
  match c.currentGameId with
  | none => (st, [])
  | some gid =>
      match storeGet st gid with
      | none => (st, [])
      | some game =>
          let remaining := removePlayer game.players socketId
          if remaining.length = 0 then
            (storeRemove st gid, [])
          else
            let st' := storeSet st gid { game with players := remaining }
            (st', [Emit.gameUpdated gid (getGameState st' gid)])

/-- The hourly cleanup (src/server/index.js lines 238-248): remove every
game with `now - createdAt > oneHour` where `oneHour = 3600000` ms.
(For `now < createdAt` JS computes a negative difference and keeps the
game; truncated `Nat` subtraction gives `0` and also keeps it.) -/
def sweepExpired (st : Store) (now : Nat) : Store :=
  st.filter (fun e => ¬ now - e.2.createdAt > 3600000)

/-- Modelled from the spec: the `start-countdown` handler, absent from
src/server/index.js although the client (GameRoom.tsx line 484) emits the
event and renders the broadcast `countdown` field.  Per spec §4.5/§4.2:
"on `startCountdown`, schedule a fixed number of one-second ticks", each
tick broadcasting, with `startCountdown(ticks)` beginning the timer.  The
handler stores the tick count and broadcasts, reusing the active-game guard
shape of the other handlers. -/
def startCountdown (st : Store) (c : Conn) (ticks : Nat) : Store × List Emit :=
  match c.currentGameId with
  | none => (st, [Emit.errorMsg "Not in an active game"])
  | some gid =>
      match storeGet st gid with
      | none => (st, [Emit.errorMsg "Not in an active game"])
      | some game =>
          let st' := storeSet st gid { game with countdown := some ticks }
          (st', [Emit.gameUpdated gid (getGameState st' gid)])

/-- Modelled from the spec: one countdown tick, absent from
src/server/index.js.  Per spec §4.2/§4.5: "each tick decrements and
rebroadcasts; on reaching zero it calls `reveal()` and clears `countdown`" /
"on the final tick, clear `countdown`, set `revealed=true`, and broadcast
the fully revealed state (including `average`)".  A tick with no countdown
in progress does nothing. -/
def countdownTick (st : Store) (gid : String) : Store × List Emit :=
  match storeGet st gid with
  | none => (st, [])
  | some game =>
      match game.countdown with
      | none => (st, [])
      | some n =>
          let game' := if n - 1 = 0 then
              { game with countdown := none, revealed := true }
            else
              { game with countdown := some (n - 1) }
          let st' := storeSet st gid game'
          (st', [Emit.gameUpdated gid (getGameState st' gid)])

/-! ### Fixtures: concrete games used to instantiate the claims -/

/-- The spec's average example: members with selections {3,5,8} and one
unset member, in a revealed game. -/
def gAvgExample : Game :=
  { id := "g1"
    players := [⟨"s1", "Ann", some (.num 3)⟩, ⟨"s2", "Bob", some (.num 5)⟩,
                ⟨"s3", "Cal", some (.num 8)⟩, ⟨"s4", "Dee", none⟩]
    revealed := true, createdAt := 0, countdown := none }

/-- The spec's all-unset average example. -/
def gAllUnset : Game :=
  { id := "g2"
    players := [⟨"s1", "Ann", none⟩, ⟨"s2", "Bob", none⟩]
    revealed := true, createdAt := 0, countdown := none }

/-- A game whose only non-numeric selections are the two sentinels, to
check that they are excluded from the average. -/
def gSentinels : Game :=
  { id := "g3"
    players := [⟨"s1", "Ann", some (.num 3)⟩, ⟨"s2", "Bob", some (.str "?")⟩,
                ⟨"s3", "Cal", some (.str "☕")⟩]
    revealed := true, createdAt := 0, countdown := none }

/-- A small unrevealed game with one chosen and one unset selection. -/
def gSel : Game :=
  { id := "g1"
    players := [⟨"s1", "Ann", some (.num 3)⟩, ⟨"s2", "Bob", none⟩]
    revealed := false, createdAt := 0, countdown := none }

def stSel : Store := [("g1", gSel)]

def cSel : Conn := { currentGameId := some "g1",
                     currentPlayer := some ⟨"s1", "Ann", some (.num 3)⟩ }

/-- The spec's "numeric selections among current Members": the selections
that are set and are neither of the two sentinels (a definition of the
spec's words, for comparison with `calculateAverage`). -/
def numericSelections (g : Game) : List Nat :=
  g.players.filterMap (fun p =>
    match p.card with
    | some (Card.num n) => some n
    | _ => none)

/-- The store reached by: create "g1", "alice" joins as socket "s1", then
"alice" joins again as socket "s2" (evicting "s1").  Socket "s1" is still
bound to "g1" through its connection state but is no longer a player. -/
def stEvicted : Store :=
  (joinGame
    (joinGame (createGame [] "g1" 0).1
      { currentGameId := none, currentPlayer := none } "s1" "g1" "alice").1
    { currentGameId := none, currentPlayer := none } "s2" "g1" "alice").1

def cEvicted : Conn :=
  { currentGameId := some "g1", currentPlayer := some ⟨"s1", "alice", none⟩ }

def gEvicted : Game :=
  { id := "g1", players := [⟨"s2", "alice", none⟩], revealed := false,
    createdAt := 0, countdown := none }

/-- Formalization of "two room states differing only in the concrete (non-null) card values
of members": identical ids, reveal flags, timestamps and countdowns, and
pointwise identical player ids, names and chosen-ness. -/
def SameHiddenShape (g g' : Game) : Prop :=
  g.id = g'.id ∧ g.revealed = g'.revealed ∧ g.createdAt = g'.createdAt ∧
  g.countdown = g'.countdown ∧
  List.Forall₂ (fun p q =>
    p.id = q.id ∧ p.name = q.name ∧ p.card.isSome = q.card.isSome)
    g.players g'.players

/-- A variant of `gSel` in which Ann picked 89 instead of 3. -/
def gSelBig : Game :=
  { id := "g1"
    players := [⟨"s1", "Ann", some (.num 89)⟩, ⟨"s2", "Bob", none⟩]
    revealed := false, createdAt := 0, countdown := none }

/-- A room in which "alice" is present under socket id "s1". -/
def gStale : Game :=
  { id := "g1"
    players := [⟨"s1", "alice", some (.num 5)⟩]
    revealed := false, createdAt := 0, countdown := none }

/-- The game `gSel` two ticks before a reveal. -/
def gCd2 : Game := { gSel with countdown := some 2 }

/-- The game `gSel` one tick before a reveal. -/
def gCd1 : Game := { gSel with countdown := some 1 }

/-- Stores reachable from the empty registry by the operations named in the
invariant claim: room creation, join, card selection, reveal, new round,
disconnect, and the expiry sweep. -/
inductive Reach : Store → Prop where
  | init : Reach []
  | create {st : Store} (gid : String) (now : Nat) :
      Reach st → Reach (createGame st gid now).1
  | join {st : Store} (c : Conn) (sid gid name : String) :
      Reach st → Reach (joinGame st c sid gid name).1
  | select {st : Store} (c : Conn) (sid : String) (card : Card) :
      Reach st → Reach (selectCard st c sid card).1
  | reveal {st : Store} (c : Conn) : Reach st → Reach (revealCards st c).1
  | round {st : Store} (c : Conn) : Reach st → Reach (newRound st c).1
  | leave {st : Store} (c : Conn) (sid : String) :
      Reach st → Reach (disconnect st c sid).1
  | sweep {st : Store} (now : Nat) : Reach st → Reach (sweepExpired st now)

/-! ### Basic lemmas about the JS-object operations -/

theorem storeGet_storeSet_self (st : Store) (gid : String) (g : Game) :
    storeGet (storeSet st gid g) gid = some g := by
  induction st with
  | nil => simp [storeGet, storeSet, List.find?_cons]
  | cons e rest ih =>
      by_cases h : e.1 = gid
      · simp [storeSet, h, storeGet, List.find?_cons]
      · simpa [storeSet, h, storeGet, List.find?_cons] using ih

theorem mem_storeSet {st : Store} {k : String} {g : Game} {e : String × Game}
    (h : e ∈ storeSet st k g) : e = (k, g) ∨ e ∈ st := by
  induction st with
  | nil => simpa [storeSet] using h
  | cons e' rest ih =>
      by_cases hk : e'.1 = k
      · simp only [storeSet, if_pos hk, List.mem_cons] at h
        rcases h with h | h
        · exact Or.inl h
        · exact Or.inr (List.mem_cons_of_mem _ h)
      · simp only [storeSet, if_neg hk, List.mem_cons] at h
        rcases h with h | h
        · exact Or.inr (by simp [h])
        · rcases ih h with h' | h'
          · exact Or.inl h'
          · exact Or.inr (List.mem_cons_of_mem _ h')

theorem mem_storeRemove {st : Store} {k : String} {e : String × Game}
    (h : e ∈ storeRemove st k) : e ∈ st := by
  induction st with
  | nil => simp [storeRemove] at h
  | cons e' rest ih =>
      by_cases hk : e'.1 = k
      · simp only [storeRemove, if_pos hk] at h
        exact List.mem_cons_of_mem _ h
      · simp only [storeRemove, if_neg hk, List.mem_cons] at h
        rcases h with h | h
        · simp [h]
        · exact List.mem_cons_of_mem _ (ih h)

theorem storeGet_mem {st : Store} {gid : String} {g : Game}
    (h : storeGet st gid = some g) : (gid, g) ∈ st := by
  unfold storeGet at h
  rcases hf : st.find? (fun e => e.1 = gid) with _ | e
  · simp [hf] at h
  · have he : e ∈ st := List.mem_of_find?_eq_some hf
    have hp := List.find?_some hf
    simp only [decide_eq_true_eq] at hp
    simp only [hf, Option.map_some] at h
    have : e = (gid, g) := by
      cases e
      simp_all
    simpa [this] using he

theorem storeGet_storeRemove_self (st : Store) (gid : String)
    (hnd : (st.map Prod.fst).Nodup) :
    storeGet (storeRemove st gid) gid = none := by
  induction st with
  | nil => simp [storeRemove, storeGet]
  | cons e rest ih =>
      simp only [List.map_cons, List.nodup_cons] at hnd
      by_cases hk : e.1 = gid
      · simp only [storeRemove, if_pos hk]
        unfold storeGet
        rw [List.find?_eq_none.mpr]
        · rfl
        · intro a ha
          simp only [decide_eq_true_eq]
          intro hkey
          apply hnd.1
          rw [hk, ← hkey]
          exact List.mem_map_of_mem Prod.fst ha
      · simp only [storeRemove, if_neg hk]
        unfold storeGet
        rw [List.find?_cons_of_neg]
        · exact ih hnd.2
        · simp [hk]

theorem findPlayer_mem {ps : List Player} {sid : String} {p : Player}
    (h : findPlayer ps sid = some p) : p ∈ ps ∧ p.id = sid := by
  unfold findPlayer at h
  refine ⟨List.mem_of_find?_eq_some h, ?_⟩
  have := List.find?_some h
  simpa using this

/-- With JS-object-unique player ids, updating the card of the player found
under `sid` is a pointwise update of the player list. -/
theorem setPlayer_map_update (ps : List Player) (sid : String) (card : Card)
    (p : Player) (hf : findPlayer ps sid = some p)
    (hnd : (ps.map Player.id).Nodup) :
    setPlayer ps sid { p with card := some card } =
      ps.map (fun q => if q.id = sid then { q with card := some card } else q) := by
  induction ps with
  | nil => simp [findPlayer] at hf
  | cons q rest ih =>
      simp only [List.map_cons, List.nodup_cons] at hnd
      by_cases hq : q.id = sid
      · have hpq : p = q := by
          unfold findPlayer at hf
          rw [List.find?_cons_of_pos _ (by simp [hq])] at hf
          exact (Option.some_injective _ hf).symm
        simp only [setPlayer, if_pos hq, List.map_cons, if_pos hq, hpq]
        congr 1
        have : ∀ r ∈ rest, (if r.id = sid then { r with card := some card } else r) = r := by
          intro r hr
          have : r.id ≠ sid := by
            intro hrs
            apply hnd.1
            rw [hq, ← hrs]
            exact List.mem_map_of_mem Player.id hr
          simp [this]
        rw [List.map_congr_left this]
        exact (List.map_id rest).symm
      · have hf' : findPlayer rest sid = some p := by
          unfold findPlayer at hf ⊢
          rwa [List.find?_cons_of_neg _ (by simp [hq])] at hf
        simp only [setPlayer, if_neg hq, List.map_cons, if_neg hq]
        exact congrArg _ (ih hf' hnd.2)

/-- Every entry of `setPlayer ps sid v` is `v` or an entry of `ps`. -/
theorem mem_setPlayer {ps : List Player} {sid : String} {v r : Player}
    (h : r ∈ setPlayer ps sid v) : r = v ∨ r ∈ ps := by
  induction ps with
  | nil => simpa [setPlayer] using h
  | cons q rest ih =>
      by_cases hq : q.id = sid
      · simp only [setPlayer, if_pos hq, List.mem_cons] at h
        rcases h with h | h
        · exact Or.inl h
        · exact Or.inr (List.mem_cons_of_mem _ h)
      · simp only [setPlayer, if_neg hq, List.mem_cons] at h
        rcases h with h | h
        · exact Or.inr (by simp [h])
        · rcases ih h with h' | h'
          · exact Or.inl h'
          · exact Or.inr (List.mem_cons_of_mem _ h')

/-! ### C2: the average -/

/-- Rewriting of `calculateAverage` through `numericSelections`. -/
theorem calculateAverage_eq (g : Game) :
    calculateAverage g =
      if numericSelections g = [] then none
      else some (toFixed1 (((numericSelections g).sum : ℚ) /
        ((numericSelections g).length : ℚ))) := by
  unfold calculateAverage numericSelections
  by_cases h : g.players.filterMap (fun p =>
      match p.card with
      | some (Card.num n) => some n
      | _ => none) = []
  · simp [h]
  · simp [h, List.length_eq_zero]

/-- C2: `calculateAverage` is absent exactly when no numeric selection
exists, and otherwise is the arithmetic mean of the numeric selections
(unset selections and the sentinels '?' and '☕' excluded) formatted to one
decimal place; on {3,5,8} plus one unset member it is "5.3", on all-unset
members it is absent, and sentinels do not enter the mean. -/
theorem calculateAverage_mean_spec (g : Game) :
    (calculateAverage g = none ↔ numericSelections g = []) ∧
    (numericSelections g ≠ [] →
      calculateAverage g =
        some (toFixed1 (((numericSelections g).sum : ℚ) /
          ((numericSelections g).length : ℚ)))) ∧
    calculateAverage gAvgExample = some "5.3" ∧
    calculateAverage gAllUnset = none ∧
    calculateAverage gSentinels = some "3.0" := by
  refine ⟨?_, ?_, ?_, ?_, ?_⟩
  · rw [calculateAverage_eq]
    by_cases h : numericSelections g = [] <;> simp [h]
  · intro h
    rw [calculateAverage_eq, if_neg h]
  · norm_num [calculateAverage, toFixed1, gAvgExample, List.filterMap]
    rfl
  · rfl
  · norm_num [calculateAverage, toFixed1, gSentinels, List.filterMap]
    rfl

theorem calculateAverage_mean_spec_witness :
    calculateAverage gAvgExample =
      some (toFixed1 (((numericSelections gAvgExample).sum : ℚ) /
        ((numericSelections gAvgExample).length : ℚ))) :=
  (calculateAverage_mean_spec gAvgExample).2.1 (by decide)

/-! ### C6: room creation -/

/-- C6 counterexample: `POST /games` does no collision check.  With a
room "abc123" already present and holding a member, a second creation under
the same id silently replaces it with a fresh empty room. -/
theorem createGame_overwrites_on_collision :
    (storeGet (joinGame (createGame [] "abc123" 0).1
        { currentGameId := none, currentPlayer := none } "s1" "abc123" "alice").1
        "abc123" =
      some { id := "abc123", players := [⟨"s1", "alice", none⟩],
             revealed := false, createdAt := 0, countdown := none }) ∧
    (storeGet (createGame (joinGame (createGame [] "abc123" 0).1
        { currentGameId := none, currentPlayer := none } "s1" "abc123" "alice").1
        "abc123" 7).1 "abc123" =
      some { id := "abc123", players := [], revealed := false,
             createdAt := 7, countdown := none }) := by
  decide

/-- C6 amended: `create()` stores a fresh empty room with
`revealed = false` and the current timestamp under the generated id and
returns that id; it performs no collision check (a colliding id silently
overwrites the existing room) and never fails. -/
theorem createGame_spec (st : Store) (gid : String) (now : Nat) :
    (createGame st gid now).2 = gid ∧
    storeGet (createGame st gid now).1 gid =
      some { id := gid, players := [], revealed := false,
             createdAt := now, countdown := none } :=
  ⟨rfl, storeGet_storeSet_self st gid _⟩

/-! ### C3, C10: select-card -/

/-- C3: for a connection bound to an existing room, `select-card` fails
with the invalid-card error whenever the value is outside `validCards`,
fails with the not-a-member error whenever (the value is valid and) the
sender is not in the room's players, and otherwise updates exactly that
player's selection, leaving ids, names, other players' selections,
`revealed` and everything else unchanged; both failing calls leave the
whole server state (store and connection) unchanged. -/
theorem selectCard_contract (st : Store) (c : Conn) (gid sid : String)
    (g : Game) (cp : Player) (card : Card)
    (hc1 : c.currentGameId = some gid) (hc2 : c.currentPlayer = some cp)
    (hg : storeGet st gid = some g)
    (hnd : (g.players.map Player.id).Nodup) :
    (¬ validCards.contains card →
      selectCard st c sid card = (st, c, [Emit.errorMsg "Invalid card value"])) ∧
    (validCards.contains card → findPlayer g.players sid = none →
      selectCard st c sid card = (st, c, [Emit.errorMsg "Player not found in game"])) ∧
    (∀ p, validCards.contains card → findPlayer g.players sid = some p →
      (selectCard st c sid card).2.1 = c ∧
      storeGet (selectCard st c sid card).1 gid =
        some { g with players := g.players.map (fun q =>
          if q.id = sid then { q with card := some card } else q) }) := by
  refine ⟨?_, ?_, ?_⟩
  · intro hcard
    have hcard' : ¬ card ∈ validCards := by simpa using hcard
    simp [selectCard, hc1, hc2, hg, hcard']
  · intro hcard hfind
    have hcard' : card ∈ validCards := by simpa using hcard
    simp [selectCard, hc1, hc2, hg, hcard', hfind]
  · intro p hcard hfind
    have hcard' : card ∈ validCards := by simpa using hcard
    refine ⟨?_, ?_⟩
    · simp [selectCard, hc1, hc2, hg, hcard', hfind]
    · have hset := setPlayer_map_update g.players sid card p hfind hnd
      simp [selectCard, hc1, hc2, hg, hcard', hfind, hset, storeGet_storeSet_self]

theorem selectCard_contract_witness :
    (selectCard stSel cSel "s1" (Card.num 5)).2.1 = cSel ∧
    storeGet (selectCard stSel cSel "s1" (Card.num 5)).1 "g1" =
      some { gSel with players := gSel.players.map (fun q =>
        if q.id = "s1" then { q with card := some (Card.num 5) } else q) } :=
  (selectCard_contract stSel cSel "g1" "s1" gSel ⟨"s1", "Ann", some (.num 3)⟩
      (Card.num 5) rfl rfl (by decide) (by decide)).2.2
    ⟨"s1", "Ann", some (.num 3)⟩ (by decide) (by decide)

/-- C10: when a `select-card` request both carries a value outside the
fixed card set and comes from a connection bound to an existing room whose
players no longer include it, the emitted error is the invalid-card one,
not the not-a-member one: the card validation precedes the membership
check, and the state is unchanged. -/
theorem invalidCard_checked_before_membership (st : Store) (c : Conn)
    (gid sid : String) (g : Game) (cp : Player) (card : Card)
    (hc1 : c.currentGameId = some gid) (hc2 : c.currentPlayer = some cp)
    (hg : storeGet st gid = some g)
    (hcard : ¬ validCards.contains card)
    (_hmem : findPlayer g.players sid = none) :
    selectCard st c sid card = (st, c, [Emit.errorMsg "Invalid card value"]) ∧
    selectCard st c sid card ≠ (st, c, [Emit.errorMsg "Player not found in game"]) := by
  have hcard' : ¬ card ∈ validCards := by simpa using hcard
  constructor
  · simp [selectCard, hc1, hc2, hg, hcard']
  · simp [selectCard, hc1, hc2, hg, hcard']

theorem invalidCard_checked_before_membership_witness :
    selectCard stEvicted cEvicted "s1" (Card.num 4) =
      (stEvicted, cEvicted, [Emit.errorMsg "Invalid card value"]) ∧
    selectCard stEvicted cEvicted "s1" (Card.num 4) ≠
      (stEvicted, cEvicted, [Emit.errorMsg "Player not found in game"]) :=
  invalidCard_checked_before_membership stEvicted cEvicted "g1" "s1"
    gEvicted ⟨"s1", "alice", none⟩ (Card.num 4) rfl rfl (by decide)
    (by decide) (by decide)

/-! ### C4: new round -/

/-- C4: after `new-round` on a bound connection whose room exists, the
room has `revealed = false`, no countdown in progress, and every player's
selection unset, while the room id, creation time, and the players' ids and
names are unchanged. -/
theorem newRound_resets (st : Store) (c : Conn) (gid : String) (g : Game)
    (hc : c.currentGameId = some gid) (hg : storeGet st gid = some g) :
    ∃ g', storeGet (newRound st c).1 gid = some g' ∧
      g'.revealed = false ∧ g'.countdown = none ∧
      (∀ p ∈ g'.players, p.card = none) ∧
      g'.id = g.id ∧ g'.createdAt = g.createdAt ∧
      g'.players.map (fun p => (p.id, p.name)) =
        g.players.map (fun p => (p.id, p.name)) := by
  refine ⟨Game.mk g.id (g.players.map (fun p => { p with card := none })) false
      g.createdAt none, ?_, rfl, rfl, ?_, rfl, rfl, ?_⟩
  · simp [newRound, hc, hg, storeGet_storeSet_self]
  · intro p hp
    simp only [List.mem_map] at hp
    obtain ⟨q, _, hq⟩ := hp
    simp [← hq]
  · simp

theorem newRound_resets_witness :
    ∃ g', storeGet (newRound [("g1", gAvgExample)]
        { currentGameId := some "g1", currentPlayer := none }).1 "g1" = some g' ∧
      g'.revealed = false ∧ g'.countdown = none ∧
      (∀ p ∈ g'.players, p.card = none) ∧
      g'.id = gAvgExample.id ∧ g'.createdAt = gAvgExample.createdAt ∧
      g'.players.map (fun p => (p.id, p.name)) =
        gAvgExample.players.map (fun p => (p.id, p.name)) :=
  newRound_resets [("g1", gAvgExample)]
    { currentGameId := some "g1", currentPlayer := none } "g1" gAvgExample
    rfl (by decide)

/-! ### C1: the sanitized view leaks nothing while hidden -/

/-- When hidden, a player's sanitized entry keeps id and name and maps the
selection to the hidden/unset marker only. -/
theorem sanitizePlayer_false (p : Player) :
    sanitizePlayer false p =
      { id := p.id, name := p.name,
        card := if p.card.isSome then ViewCard.hidden else ViewCard.unset } := by
  cases h : p.card <;> simp [sanitizePlayer, h]

theorem sanitize_hidden_congr {ps qs : List Player}
    (h : List.Forall₂ (fun p q =>
      p.id = q.id ∧ p.name = q.name ∧ p.card.isSome = q.card.isSome) ps qs) :
    ps.map (sanitizePlayer false) = qs.map (sanitizePlayer false) := by
  induction h with
  | nil => rfl
  | cons hpq _ ih =>
      simp only [List.map_cons, ih]
      obtain ⟨h1, h2, h3⟩ := hpq
      rw [sanitizePlayer_false, sanitizePlayer_false, h1, h2, h3]

/-- C1: for an unrevealed room, the view served by `getGameState` and by
`GET /games/:gameId` carries no raw selection: each member's selection field
is the hidden marker if a card was chosen and the unset marker otherwise,
and the average is absent; consequently two room states differing only in
the concrete card values of their members produce identical views on both
interfaces. -/
theorem hidden_view_no_leak (st st' : Store) (gid : String) (g g' : Game)
    (hg : storeGet st gid = some g) (hg' : storeGet st' gid = some g')
    (hrev : g.revealed = false) (hrel : SameHiddenShape g g') :
    getGameState st gid = some (sanitizedView g) ∧
    httpGetGame st gid = Except.ok (sanitizedView g) ∧
    (sanitizedView g).average = none ∧
    (sanitizedView g).players = g.players.map (fun p =>
      { id := p.id, name := p.name,
        card := if p.card.isSome then ViewCard.hidden else ViewCard.unset }) ∧
    getGameState st gid = getGameState st' gid ∧
    httpGetGame st gid = httpGetGame st' gid := by
  obtain ⟨hid, hrv, hca, hcd, hps⟩ := hrel
  have hrev' : g'.revealed = false := hrv ▸ hrev
  have hviews : sanitizedView g = sanitizedView g' := by
    unfold sanitizedView
    rw [hid, hcd, hrev, hrev']
    simp only [if_neg (by simp : ¬ (false : Bool) = true)]
    rw [sanitize_hidden_congr hps]
  refine ⟨?_, ?_, ?_, ?_, ?_, ?_⟩
  · simp [getGameState, hg]
  · simp [httpGetGame, hg]
  · simp [sanitizedView, hrev]
  · simp only [sanitizedView, hrev]
    exact List.map_congr_left (fun p _ => sanitizePlayer_false p)
  · simp [getGameState, hg, hg', hviews]
  · simp [httpGetGame, hg, hg', hviews]

theorem hidden_view_no_leak_witness :
    getGameState [("g1", gSel)] "g1" = some (sanitizedView gSel) ∧
    httpGetGame [("g1", gSel)] "g1" = Except.ok (sanitizedView gSel) ∧
    (sanitizedView gSel).average = none ∧
    (sanitizedView gSel).players = gSel.players.map (fun p =>
      { id := p.id, name := p.name,
        card := if p.card.isSome then ViewCard.hidden else ViewCard.unset }) ∧
    getGameState [("g1", gSel)] "g1" = getGameState [("g1", gSelBig)] "g1" ∧
    httpGetGame [("g1", gSel)] "g1" = httpGetGame [("g1", gSelBig)] "g1" :=
  hidden_view_no_leak [("g1", gSel)] [("g1", gSelBig)] "g1" gSel gSelBig
    rfl rfl rfl
    ⟨rfl, rfl, rfl, rfl,
      List.Forall₂.cons (by simp [gSel, gSelBig])
        (List.Forall₂.cons (by simp [gSel, gSelBig]) List.Forall₂.nil)⟩

/-! ### C5: join evicts a stale same-name player -/

/-- If exactly one player carries `name` and its id differs from the
joining socket, the handler's duplicate-name search finds it. -/
theorem find_stale (ps : List Player) (name sid : String) (p₀ : Player)
    (hfilter : ps.filter (fun p => p.name = name) = [p₀])
    (hid : p₀.id ≠ sid) :
    ps.find? (fun p => p.name = name ∧ p.id ≠ sid) = some p₀ := by
  induction ps with
  | nil => simp at hfilter
  | cons q t ih =>
      by_cases hq : q.name = name
      · have h2 : q = p₀ ∧ t.filter (fun p => p.name = name) = [] := by
          simp only [List.filter_cons, hq, decide_True, if_true] at hfilter
          simpa using hfilter
        obtain ⟨rfl, _⟩ := h2
        rw [List.find?_cons_of_pos _ (by simp [hq, hid])]
      · have ht : t.filter (fun p => p.name = name) = [p₀] := by
          simpa only [List.filter_cons, hq, decide_False, if_false] using hfilter
        rw [List.find?_cons_of_neg _ (by simp [hq])]
        exact ih ht

/-- Removing the unique entry with `p₀`'s id removes the only player named
`name`. -/
theorem filter_name_eraseP (ps : List Player) (name : String) (p₀ : Player)
    (hfilter : ps.filter (fun p => p.name = name) = [p₀])
    (hnd : (ps.map Player.id).Nodup) :
    (ps.eraseP (fun p => p.id = p₀.id)).filter (fun p => p.name = name) = [] := by
  induction ps with
  | nil => simp at hfilter
  | cons q t ih =>
      simp only [List.map_cons, List.nodup_cons] at hnd
      by_cases hq : q.id = p₀.id
      · rw [List.eraseP_cons_of_pos (by simp [hq])]
        by_cases hname : q.name = name
        · have h2 : q = p₀ ∧ t.filter (fun p => p.name = name) = [] := by
            simp only [List.filter_cons, hname, decide_True, if_true] at hfilter
            simpa using hfilter
          exact h2.2
        · exfalso
          have ht : t.filter (fun p => p.name = name) = [p₀] := by
            simpa only [List.filter_cons, hname, decide_False, if_false] using hfilter
          have hpt : p₀ ∈ t :=
            List.mem_of_mem_filter (ht ▸ List.mem_singleton_self p₀)
          exact hnd.1 (hq ▸ List.mem_map_of_mem Player.id hpt)
      · rw [List.eraseP_cons_of_neg (by simp [hq])]
        by_cases hname : q.name = name
        · exfalso
          have h2 : q = p₀ ∧ t.filter (fun p => p.name = name) = [] := by
            simp only [List.filter_cons, hname, decide_True, if_true] at hfilter
            simpa using hfilter
          exact hq (by rw [h2.1])
        · have ht : t.filter (fun p => p.name = name) = [p₀] := by
            simpa only [List.filter_cons, hname, decide_False, if_false] using hfilter
          simp only [List.filter_cons, hname, decide_False, if_false]
          exact ih ht hnd.2

/-- With JS-object-unique ids, the evicted player is gone. -/
theorem not_mem_eraseP_id (ps : List Player) (p₀ : Player)
    (hnd : (ps.map Player.id).Nodup) :
    p₀ ∉ ps.eraseP (fun p => p.id = p₀.id) := by
  induction ps with
  | nil => simp
  | cons q t ih =>
      simp only [List.map_cons, List.nodup_cons] at hnd
      by_cases hq : q.id = p₀.id
      · rw [List.eraseP_cons_of_pos (by simp [hq])]
        intro hmem
        exact hnd.1 (hq ▸ List.mem_map_of_mem Player.id hmem)
      · rw [List.eraseP_cons_of_neg (by simp [hq])]
        intro hmem
        rcases List.mem_cons.mp hmem with h | h
        · exact hq (by rw [h])
        · exact ih hnd.2 h

/-- Inserting the joining player into a list with no `name`-carrier leaves
exactly that one player named `name`. -/
theorem filter_name_setPlayer (l : List Player) (sid name : String)
    (hupdOld : l.filter (fun p => p.name = name) = []) :
    (setPlayer l sid ⟨sid, name, none⟩).filter (fun p => p.name = name) =
      [⟨sid, name, none⟩] := by
  induction l with
  | nil => simp [setPlayer]
  | cons q t ih =>
      have hq : ¬ q.name = name := by
        intro h
        simp [List.filter_cons, h] at hupdOld
      have ht : t.filter (fun p => p.name = name) = [] := by
        simpa only [List.filter_cons, hq, decide_False, if_false] using hupdOld
      by_cases hid : q.id = sid
      · rw [setPlayer, if_pos hid]
        simp [List.filter_cons, hq, ht]
      · rw [setPlayer, if_neg hid]
        simp only [List.filter_cons, hq, decide_False, if_false]
        exact ih ht

/-- C5: joining an existing room in which exactly one member carries the
requested name, under a different connection id, evicts that stale member
and inserts the joining connection with an unset selection, so that exactly
one member with that name remains and its id is the joining connection's
id; no error is emitted. -/
theorem joinGame_evicts_stale (st : Store) (c : Conn) (sid gid name : String)
    (g : Game) (p₀ : Player)
    (hg : storeGet st gid = some g)
    (hnd : (g.players.map Player.id).Nodup)
    (hfilter : g.players.filter (fun p => p.name = name) = [p₀])
    (hid : p₀.id ≠ sid) :
    ∃ st', joinGame st c sid gid name =
        (st', { currentGameId := some gid, currentPlayer := some ⟨sid, name, none⟩ },
         [Emit.gameUpdated gid (getGameState st' gid)]) ∧
      ∃ g', storeGet st' gid = some g' ∧
        g'.players.filter (fun p => p.name = name) = [⟨sid, name, none⟩] ∧
        p₀ ∉ g'.players := by
  have hfind := find_stale g.players name sid p₀ hfilter hid
  have hfind2 : List.find? (fun p => decide (p.name = name) && !decide (p.id = sid))
      g.players = some p₀ := by simpa using hfind
  refine ⟨storeSet st gid { g with players := setPlayer (g.players.eraseP (fun p => p.id = p₀.id)) sid ⟨sid, name, none⟩ }, ?_, ?_⟩
  · simp [joinGame, hg, hfind2]
  · refine ⟨_, storeGet_storeSet_self _ _ _, ?_, ?_⟩
    · exact filter_name_setPlayer _ sid name
        (filter_name_eraseP g.players name p₀ hfilter hnd)
    · intro hmem
      rcases mem_setPlayer hmem with h | h
      · exact hid (by rw [h])
      · exact not_mem_eraseP_id g.players p₀ hnd h

theorem joinGame_evicts_stale_witness :
    ∃ st', joinGame [("g1", gStale)]
        { currentGameId := none, currentPlayer := none } "s2" "g1" "alice" =
        (st', { currentGameId := some "g1", currentPlayer := some ⟨"s2", "alice", none⟩ },
         [Emit.gameUpdated "g1" (getGameState st' "g1")]) ∧
      ∃ g', storeGet st' "g1" = some g' ∧
        g'.players.filter (fun p => p.name = "alice") = [⟨"s2", "alice", none⟩] ∧
        (⟨"s1", "alice", some (.num 5)⟩ : Player) ∉ g'.players :=
  joinGame_evicts_stale _ _ "s2" "g1" "alice" gStale ⟨"s1", "alice", some (.num 5)⟩
    rfl (by decide) (by decide) (by decide)

/-! ### C8: disconnect -/

/-- C8: when the disconnecting socket was the room's last player, the
room is removed from the store (a subsequent lookup and the HTTP endpoint
report not-found) and nothing is broadcast; when other players remain, the
room stays with only that player removed and exactly one broadcast of the
updated sanitized view is emitted. -/
theorem disconnect_membership (st : Store) (c : Conn) (gid sid : String)
    (g : Game)
    (hc : c.currentGameId = some gid) (hg : storeGet st gid = some g)
    (hknd : (st.map Prod.fst).Nodup) :
    (removePlayer g.players sid = [] →
      disconnect st c sid = (storeRemove st gid, []) ∧
      storeGet (disconnect st c sid).1 gid = none ∧
      httpGetGame (disconnect st c sid).1 gid = Except.error "Game not found") ∧
    (removePlayer g.players sid ≠ [] →
      ∃ st', disconnect st c sid =
          (st', [Emit.gameUpdated gid (getGameState st' gid)]) ∧
        storeGet st' gid = some { g with players := removePlayer g.players sid }) := by
  constructor
  · intro hrem
    have h1 : disconnect st c sid = (storeRemove st gid, []) := by
      simp [disconnect, hc, hg, hrem]
    have h2 : storeGet (disconnect st c sid).1 gid = none := by
      rw [h1]
      exact storeGet_storeRemove_self st gid hknd
    refine ⟨h1, h2, ?_⟩
    simp [httpGetGame, h2]
  · intro hrem
    have hlen : ¬ (removePlayer g.players sid).length = 0 := by
      simpa [List.length_eq_zero] using hrem
    refine ⟨storeSet st gid { g with players := removePlayer g.players sid }, ?_,
      storeGet_storeSet_self _ _ _⟩
    simp [disconnect, hc, hg, hlen]

theorem disconnect_membership_witness :
    ∃ st', disconnect [("g1", gSel)] cSel "s1" =
        (st', [Emit.gameUpdated "g1" (getGameState st' "g1")]) ∧
      storeGet st' "g1" = some { gSel with players := removePlayer gSel.players "s1" } :=
  (disconnect_membership [("g1", gSel)] cSel "g1" "s1" gSel rfl (by decide)
      (by decide)).2 (by decide)

/-! ### C7: the countdown-based reveal (modelled from the spec) -/

/-- C7 (the countdown controller is repository code absent from src/,
modelled from the spec; the client emits `start-countdown` and renders the
broadcast countdown): a `start-countdown` request on a bound connection
stores the tick count and broadcasts it; every tick with more than one tick
remaining decrements the room's countdown field and rebroadcasts; the final
tick clears the countdown and sets `revealed := true`, broadcasting the
revealed state. -/
theorem countdown_reveal_path (st : Store) (c : Conn) (gid : String)
    (g : Game) (ticks : Nat)
    (hc : c.currentGameId = some gid) (hg : storeGet st gid = some g) :
    (∃ st₁, startCountdown st c ticks =
        (st₁, [Emit.gameUpdated gid (getGameState st₁ gid)]) ∧
      storeGet st₁ gid = some { g with countdown := some ticks }) ∧
    (∀ n, g.countdown = some n → 2 ≤ n →
      ∃ st', countdownTick st gid =
          (st', [Emit.gameUpdated gid (getGameState st' gid)]) ∧
        storeGet st' gid = some { g with countdown := some (n - 1) }) ∧
    (g.countdown = some 1 →
      ∃ st', countdownTick st gid =
          (st', [Emit.gameUpdated gid (getGameState st' gid)]) ∧
        storeGet st' gid = some { g with countdown := none, revealed := true }) := by
  refine ⟨?_, ?_, ?_⟩
  · refine ⟨storeSet st gid { g with countdown := some ticks }, ?_,
      storeGet_storeSet_self _ _ _⟩
    simp [startCountdown, hc, hg]
  · intro n hcd hn
    have hne : ¬ n - 1 = 0 := by omega
    refine ⟨storeSet st gid { g with countdown := some (n - 1) }, ?_,
      storeGet_storeSet_self _ _ _⟩
    simp [countdownTick, hg, hcd, hne]
  · intro hcd
    refine ⟨storeSet st gid { g with countdown := none, revealed := true }, ?_,
      storeGet_storeSet_self _ _ _⟩
    simp [countdownTick, hg, hcd]

theorem countdown_reveal_path_witness :
    (∃ st₁, startCountdown [("g1", gCd2)] cSel 3 =
        (st₁, [Emit.gameUpdated "g1" (getGameState st₁ "g1")]) ∧
      storeGet st₁ "g1" = some { gCd2 with countdown := some 3 }) ∧
    (∃ st', countdownTick [("g1", gCd2)] "g1" =
        (st', [Emit.gameUpdated "g1" (getGameState st' "g1")]) ∧
      storeGet st' "g1" = some { gCd2 with countdown := some 1 }) ∧
    (∃ st', countdownTick [("g1", gCd1)] "g1" =
        (st', [Emit.gameUpdated "g1" (getGameState st' "g1")]) ∧
      storeGet st' "g1" = some { gCd1 with countdown := none, revealed := true }) :=
  ⟨(countdown_reveal_path [("g1", gCd2)] cSel "g1" gCd2 3 rfl rfl).1,
   (countdown_reveal_path [("g1", gCd2)] cSel "g1" gCd2 3 rfl rfl).2.1 2 rfl
     (by decide),
   (countdown_reveal_path [("g1", gCd1)] cSel "g1" gCd1 3 rfl rfl).2.2 rfl⟩

/-! ### C9: reachable states never have a countdown under `revealed` -/

/-- Setting a countdown-free game into a countdown-free store keeps every
entry countdown-free. -/
theorem inv_storeSet {st : Store} {gid : String} {g' : Game} {e : String × Game}
    (he : e ∈ storeSet st gid g')
    (ih : ∀ e ∈ st, (Prod.snd e).countdown = none)
    (hg' : g'.countdown = none) :
    (Prod.snd e).countdown = none := by
  rcases mem_storeSet he with h | h
  · simp [h, hg']
  · exact ih e h

/-- No operation of `Reach` ever installs a countdown. -/
theorem reach_countdown_none {st : Store} (h : Reach st) :
    ∀ e ∈ st, (Prod.snd e).countdown = none := by
  induction h with
  | init => simp
  | create gid now _ ih =>
      intro e he
      simp only [createGame] at he
      exact inv_storeSet he ih rfl
  | join c sid gid name _ ih =>
      rename_i st _
      intro e he
      rcases hsg : storeGet st gid with _ | game
      · simp only [joinGame, hsg] at he
        exact ih e he
      · simp only [joinGame, hsg] at he
        have hcd : game.countdown = none := ih (gid, game) (storeGet_mem hsg)
        exact inv_storeSet he ih hcd
  | select c sid card _ ih =>
      rename_i st _
      intro e he
      obtain ⟨cgid, cp⟩ := c
      rcases cgid with _ | gid
      · simp only [selectCard] at he
        exact ih e he
      · rcases cp with _ | p
        · simp only [selectCard] at he
          exact ih e he
        · rcases hsg : storeGet st gid with _ | game
          · simp only [selectCard, hsg] at he
            exact ih e he
          · by_cases hcard : card ∈ validCards
            · rcases hfp : findPlayer game.players sid with _ | q
              · simp [selectCard, hsg, hcard, hfp] at he
                exact ih e he
              · simp [selectCard, hsg, hcard, hfp] at he
                have hcd : game.countdown = none := ih (gid, game) (storeGet_mem hsg)
                exact inv_storeSet he ih hcd
            · simp [selectCard, hsg, hcard] at he
              exact ih e he
  | reveal c _ ih =>
      rename_i st _
      intro e he
      rcases c with ⟨cgid, cp⟩
      rcases cgid with _ | gid
      · simp only [revealCards] at he
        exact ih e he
      · rcases hsg : storeGet st gid with _ | game
        · simp only [revealCards, hsg] at he
          exact ih e he
        · simp only [revealCards, hsg] at he
          have hcd : game.countdown = none := ih (gid, game) (storeGet_mem hsg)
          exact inv_storeSet he ih hcd
  | round c _ ih =>
      rename_i st _
      intro e he
      rcases c with ⟨cgid, cp⟩
      rcases cgid with _ | gid
      · simp only [newRound] at he
        exact ih e he
      · rcases hsg : storeGet st gid with _ | game
        · simp only [newRound, hsg] at he
          exact ih e he
        · simp only [newRound, hsg] at he
          exact inv_storeSet he ih rfl
  | leave c sid _ ih =>
      rename_i st _
      intro e he
      rcases c with ⟨cgid, cp⟩
      rcases cgid with _ | gid
      · simp only [disconnect] at he
        exact ih e he
      · rcases hsg : storeGet st gid with _ | game
        · simp only [disconnect, hsg] at he
          exact ih e he
        · by_cases hlen : (removePlayer game.players sid).length = 0
          · simp [disconnect, hsg, hlen] at he
            exact ih e (mem_storeRemove he)
          · simp [disconnect, hsg, hlen] at he
            have hcd : game.countdown = none := ih (gid, game) (storeGet_mem hsg)
            exact inv_storeSet he ih hcd
  | sweep now _ ih =>
      intro e he
      exact ih e (List.mem_of_mem_filter he)

/-- C9: in every room state reachable by any sequence of create, join,
selectCard, reveal, newRound, leave and sweep operations, `revealed = true`
implies no countdown is in progress (indeed no reachable room ever carries
one, the src server never installing a countdown). -/
theorem revealed_implies_no_countdown (st : Store) (gid : String) (g : Game)
    (hr : Reach st) (hg : storeGet st gid = some g)
    (_hrev : g.revealed = true) : g.countdown = none :=
  reach_countdown_none hr (gid, g) (storeGet_mem hg)

theorem revealed_implies_no_countdown_witness :
    storeGet (revealCards (joinGame (createGame [] "g1" 0).1
        { currentGameId := none, currentPlayer := none } "s1" "g1" "ann").1
        { currentGameId := some "g1", currentPlayer := none }).1 "g1" =
      some { id := "g1", players := [⟨"s1", "ann", none⟩], revealed := true,
             createdAt := 0, countdown := none } ∧
    ({ id := "g1", players := [⟨"s1", "ann", none⟩], revealed := true,
       createdAt := 0, countdown := none } : Game).countdown = none :=
  ⟨by decide,
   revealed_implies_no_countdown _ "g1" _
     (Reach.reveal { currentGameId := some "g1", currentPlayer := none }
       (Reach.join { currentGameId := none, currentPlayer := none }
         "s1" "g1" "ann" (Reach.create "g1" 0 Reach.init)))
     (by decide) (by decide)⟩

end PlanningPoker
